import Mathlib

/-!
Shallow embedding of the analytics core of the repository (backend/src/domain/usecases):
`cashflow_forecast.py`, `detect_anomalies.py`, `create_collection_reminder.py`.

Modelling conventions:
* Python numbers (floats used as real quantities by the spec) are modelled as `ℚ`,
  exact rational arithmetic; `round(x, 2)` is round-half-to-even at two decimals.
* The repository objects (`SalesRepository`, `ActionRepository`) are modelled as
  function parameters; an exception raised by a repository call is an `Except.error`
  value which the use cases wrap in an explicit `source` constructor (the Python
  code logs and re-raises unchanged).
* `statistics.stdev` returns the square root of the Bessel-corrected sample
  variance.  The square root of a rational is irrational in general, so every
  quantity the code derives from `std_dev` is computed here in exact arithmetic:
  comparisons `|z| > threshold` are decided by comparing squares, and
  `round(z, 2)` is computed by `rheDivSqrt`, an exact round-half-even of
  `d / √v` implemented with an integer square root.
-/

/- The Batteries rational operations are `@[irreducible]`, which blocks the
`decide`-based evaluation of the executable definitions below on concrete
inputs; restore the default reducibility for them in this file. -/
attribute [local semireducible] Rat.add Rat.mul Rat.sub Rat.inv Rat.ofScientific

/-- Round-half-to-even of a rational to the nearest integer
(the behaviour of Python's `round` on exact values). -/
def rhe (q : ℚ) : ℤ :=
  let f := ⌊q⌋
  let r := q - (f : ℚ)
  if r < 1/2 then f
  else if r = 1/2 then (if f % 2 = 0 then f else f + 1)
  else f + 1

/-- Python `round(x, 2)`: round to two decimal places, ties to even. -/
def round2 (q : ℚ) : ℚ := (rhe (100 * q) : ℚ) / 100

/-- Binary-search integer square root, structural fuel.
Invariant maintained: `lo * lo ≤ n < hi * hi`. -/
def isqrtFuel (n : ℕ) : ℕ → ℕ → ℕ → ℕ
  | 0, lo, _ => lo
  | fuel + 1, lo, hi =>
    if hi ≤ lo + 1 then lo
    else
      let mid := (lo + hi) / 2
      if mid * mid ≤ n then isqrtFuel n fuel mid hi else isqrtFuel n fuel lo mid

/-- Integer square root `⌊√n⌋` of a natural number (128 halving steps cover any
`n` below `2 ^ 128`). -/
def isqrtN (n : ℕ) : ℕ := isqrtFuel n 128 0 (n + 1)

/-- Integer square root `⌊√q⌋` of a nonnegative rational: `⌊√q⌋ = ⌊√⌊q⌋⌋`. -/
def isqrtQ (q : ℚ) : ℤ := (isqrtN (Int.toNat ⌊q⌋) : ℤ)

/-- Floor `⌊d / √v⌋` in exact arithmetic (meaningful for `v > 0`).
For `d ≥ 0` this is `⌊√(d² / v)⌋`; for `d < 0` it is `-⌈|d| / √v⌉`, where the
ceiling adds one unless `|d| / √v` is exactly the integer `k`. -/
def floorDivSqrt (d v : ℚ) : ℤ :=
  if 0 ≤ d then isqrtQ (d ^ 2 / v)
  else
    let k := isqrtQ (d ^ 2 / v)
    if d ^ 2 = (k : ℚ) ^ 2 * v then -k else -(k + 1)

/-- Decides `d / √v < c` for `v > 0` by comparing squares with sign analysis. -/
def divSqrtLtQ (d v c : ℚ) : Bool :=
  if 0 ≤ d then decide (0 ≤ c) && decide (d ^ 2 < c ^ 2 * v)
  else decide (0 ≤ c) || decide (c ^ 2 * v < d ^ 2)

/-- Decides `d / √v = c` for `v > 0`. -/
def divSqrtEqQ (d v c : ℚ) : Bool :=
  decide ((0 ≤ d) ↔ (0 ≤ c)) && decide (d ^ 2 = c ^ 2 * v)

/-- Round-half-to-even of `d / √v` to the nearest integer (meaningful for `v > 0`). -/
def rheDivSqrt (d v : ℚ) : ℤ :=
  let f := floorDivSqrt d v
  if divSqrtLtQ d v ((f : ℚ) + 1/2) then f
  else if divSqrtEqQ d v ((f : ℚ) + 1/2) then (if f % 2 = 0 then f else f + 1)
  else f + 1

/-- Python `round(z, 2)` for the z-score `z = d / √v` (`std_dev = √v`):
`round(z,2) = rhe(100·z)/100` and `100·z = (100·d)/√v`.  The `v ≤ 0` branch mirrors
the code's `z_score = ... if std_dev > 0 else 0.0` guard. -/
def zRound (d v : ℚ) : ℚ := if 0 < v then (rheDivSqrt (100 * d) v : ℚ) / 100 else 0

/-- Round-half-to-even of `√q` to the nearest integer, for `q ≥ 0`. -/
def rheSqrt (q : ℚ) : ℤ :=
  let f := isqrtQ q
  if q < ((f : ℚ) + 1/2) ^ 2 then f
  else if q = ((f : ℚ) + 1/2) ^ 2 then (if f % 2 = 0 then f else f + 1)
  else f + 1

/-- Python `round(std_dev, 2)` where `std_dev = √v`: `rhe(100·√v)/100 = rhe(√(10000·v))/100`. -/
def stdRound2 (v : ℚ) : ℚ := (rheSqrt (10000 * v) : ℚ) / 100

/-- One entry of the series returned by `get_sales_series`
(a dict `{"date": ..., "amount": ...}` in the source). -/
structure SalesPoint where
  date : String
  amount : ℚ
deriving DecidableEq

/-- Python `statistics.mean` on exact rationals. -/
def qmean (l : List ℚ) : ℚ := l.sum / (l.length : ℚ)

/-- Bessel-corrected sample variance, the square of `statistics.stdev`. -/
def sampleVar (l : List ℚ) : ℚ :=
  (l.map (fun a => (a - qmean l) ^ 2)).sum / ((l.length : ℚ) - 1)

/-- Errors a use case can produce: its own `ValueError` for insufficient data
(`InsufficientDataError` in the spec), or a failure of the repository call,
re-raised unchanged (the payload `e` is preserved verbatim). -/
inductive UCErr (ε : Type) where
  | insufficientData (msg : String)
  | source (e : ε)
deriving DecidableEq

/-- The result dict of `CashflowForecastUC.execute`. -/
structure ForecastResult where
  forecast_days : ℤ
  average_daily_cashflow : ℚ
  total_forecast : ℚ
  historical_period_days : ℕ
deriving DecidableEq

/-- Embedding of `CashflowForecastUC.execute` (cashflow_forecast.py, lines 32-88).
The repository is the function parameter `repo`; `repo d = .error e` models
`get_sales_series(days=d)` raising, which the code re-raises unchanged. -/
def CashflowForecastUC.execute {ε : Type} (repo : ℤ → Except ε (List SalesPoint))
    (horizon_days : ℤ) : Except (UCErr ε) ForecastResult :=
  -- lookback_days = max(horizon_days * 2, 60)
  let lookback_days := max (horizon_days * 2) 60
  match repo lookback_days with
  | .error e => .error (.source e)
  | .ok sales_series =>
    if sales_series = [] then
      .error (.insufficientData "No historical sales data available for forecast")
    else
      let amounts := sales_series.map SalesPoint.amount
      -- avg_daily = mean(amounts) if amounts else 0.0
      let avg_daily := if amounts = [] then 0 else qmean amounts
      let total_forecast := avg_daily * (horizon_days : ℚ)
      .ok { forecast_days := horizon_days
            average_daily_cashflow := round2 avg_daily
            total_forecast := round2 total_forecast
            historical_period_days := sales_series.length }

/-- ASCII whitespace stripped by Python's `str.strip()` / `int()`
(the model is restricted to ASCII whitespace). -/
def isPySpace (c : Char) : Bool :=
  c = ' ' || c = '\t' || c = '\n' || c = '\x0d' || c = '\x0b' || c = '\x0c'

/-- Numeric value of an ASCII digit character. -/
def digitVal (c : Char) : ℕ := c.toNat - 48

/-- Decimal digits (ASCII) with Python's underscore rule: after the leading digit,
single underscores may appear, each followed by a digit; accumulates the value. -/
def pyDigitsAux (acc : ℕ) : List Char → Option ℕ
  | [] => some acc
  | c :: cs =>
    if c = '_' then
      match cs with
      | [] => none
      | c2 :: cs2 => if c2.isDigit then pyDigitsAux (10 * acc + digitVal c2) cs2 else none
    else if c.isDigit then pyDigitsAux (10 * acc + digitVal c) cs else none

/-- A nonempty digit group in Python integer-literal syntax (`"1_000"` is `1000`;
leading, trailing or doubled underscores are rejected). -/
def pyDigits : List Char → Option ℕ
  | [] => none
  | c :: cs => if c.isDigit then pyDigitsAux (digitVal c) cs else none

/-- Python `int(s)` on a character list: optional surrounding whitespace, an optional
single sign, then digits with underscore separators.  `none` models `ValueError`. -/
def pyIntList (cs : List Char) : Option ℤ :=
  let t := ((cs.dropWhile isPySpace).reverse.dropWhile isPySpace).reverse
  match t with
  | [] => none
  | c :: rest =>
    if c = '+' then (pyDigits rest).map Int.ofNat
    else if c = '-' then (pyDigits rest).map (fun n => -(n : ℤ))
    else (pyDigits (c :: rest)).map Int.ofNat

/-- Embedding of `DetectAnomaliesUC._parse_period_days` (detect_anomalies.py,
lines 127-147):
`period.startswith("last_")` and `period.endswith("d")` select the slice
`period[5:-1]`, which is fed to `int`; any failure falls back to 60. -/
def DetectAnomaliesUC.parse_period_days (period : String) : ℤ :=
  let cs := period.toList
  if cs.take 5 = ['l', 'a', 's', 't', '_'] ∧ cs.getLast? = some 'd' then
    match pyIntList ((cs.drop 5).dropLast) with
    | some n => n
    | none => 60
  else 60

/-- One entry of the `anomalies` list (a dict in the source).  `amount` and
`z_score` hold the rounded values the code stores. -/
structure AnomalyPoint where
  date : String
  amount : ℚ
  z_score : ℚ
  deviation : String
deriving DecidableEq

/-- The result dict of `DetectAnomaliesUC.execute`. -/
structure AnomalyResult where
  period : String
  total_days : ℕ
  mean_sales : ℚ
  std_dev : ℚ
  anomalies : List AnomalyPoint
  anomaly_count : ℕ
deriving DecidableEq

/-- The test `abs(z_score) > threshold` in exact arithmetic, where
`z_score = (amount - mean)/std_dev if std_dev > 0 else 0.0` and `std_dev = √v`:
for `v > 0`, `|d/√v| > t` iff `t < 0` or `t² · v < d²`; for `std_dev = 0` the code
compares `|0.0| > t`. -/
def DetectAnomaliesUC.isAnomalous (threshold d v : ℚ) : Bool :=
  if 0 < v then decide (threshold < 0) || decide (threshold ^ 2 * v < d ^ 2)
  else decide (threshold < 0)

/-- The test `z_score > 0` in exact arithmetic (same guard as above). -/
def DetectAnomaliesUC.zPositive (d v : ℚ) : Bool :=
  if 0 < v then decide (0 < d) else false

/-- The anomaly dict built for one sale (detect_anomalies.py, lines 94-99),
with `d = amount - mean` and `v` the sample variance (`std_dev = √v`). -/
def DetectAnomaliesUC.anomalyEntry (m v : ℚ) (sale : SalesPoint) : AnomalyPoint :=
  { date := sale.date
    amount := round2 sale.amount
    z_score := zRound (sale.amount - m) v
    deviation := if DetectAnomaliesUC.zPositive (sale.amount - m) v then "high" else "low" }

/-- The `anomalies` list as accumulated by the loop (series order), before sorting. -/
def DetectAnomaliesUC.anomaliesUnsorted (threshold m v : ℚ)
    (sales_series : List SalesPoint) : List AnomalyPoint :=
  sales_series.filterMap fun sale =>
    if DetectAnomaliesUC.isAnomalous threshold (sale.amount - m) v then
      some (DetectAnomaliesUC.anomalyEntry m v sale)
    else none

/-- Embedding of `anomalies.sort(key=lambda x: abs(x["z_score"]), reverse=True)`:
Python's sort
is stable; insertion sort with this total preorder is extensionally the same
stable sort (equal keys keep their relative order). -/
def DetectAnomaliesUC.sortAnomalies (l : List AnomalyPoint) : List AnomalyPoint :=
  List.insertionSort (fun p q => |q.z_score| ≤ |p.z_score|) l

/-- Embedding of `DetectAnomaliesUC.execute` (detect_anomalies.py, lines 34-125). -/
def DetectAnomaliesUC.execute {ε : Type} (repo : ℤ → Except ε (List SalesPoint))
    (threshold : ℚ) (period : String) : Except (UCErr ε) AnomalyResult :=
  let days := DetectAnomaliesUC.parse_period_days period
  match repo days with
  | .error e => .error (.source e)
  | .ok sales_series =>
    if sales_series.length < 2 then
      .error (.insufficientData "Insufficient data for anomaly detection (need at least 2 days)")
    else
      let amounts := sales_series.map SalesPoint.amount
      let mean_val := qmean amounts
      -- if len(set(amounts)) < 2: return early with std_dev = 0.0 and no anomalies
      if amounts.dedup.length < 2 then
        .ok { period := period
              total_days := sales_series.length
              mean_sales := round2 mean_val
              std_dev := 0
              anomalies := []
              anomaly_count := 0 }
      else
        -- std_dev = stdev(amounts) = √v with v the sample variance
        let v := sampleVar amounts
        let anomalies := DetectAnomaliesUC.sortAnomalies
          (DetectAnomaliesUC.anomaliesUnsorted threshold mean_val v sales_series)
        .ok { period := period
              total_days := sales_series.length
              mean_sales := round2 mean_val
              std_dev := stdRound2 v
              anomalies := anomalies
              anomaly_count := anomalies.length }

/-- Python `str.strip()` (restricted to ASCII whitespace). -/
def pyStrip (s : String) : String :=
  ⟨((s.toList.dropWhile isPySpace).reverse.dropWhile isPySpace).reverse⟩

/-- Gregorian leap year, as `calendar`/`datetime` define it. -/
def isLeap (y : ℕ) : Bool := (y % 4 = 0 && y % 100 ≠ 0) || y % 400 = 0

/-- Days in a month of a given year. -/
def daysInMonth (y m : ℕ) : ℕ :=
  if m = 2 then (if isLeap y then 29 else 28)
  else if m = 4 ∨ m = 6 ∨ m = 9 ∨ m = 11 then 30 else 31

/-- Value of a fixed-width run of ASCII digits; `none` if any is not a digit. -/
def digitsValue : List Char → Option ℕ
  | [] => some 0
  | c :: cs =>
    if c.isDigit then (digitsValue cs).map (fun n => digitVal c * 10 ^ cs.length + n)
    else none

/-- The `HH:MM[:SS[.fff[fff]]]` time components accepted by
`datetime.fromisoformat` (fraction of exactly 3 or 6 digits), with range checks. -/
def isoTimeOk (cs : List Char) : Bool :=
  match cs with
  | [h1, h2] => (digitsValue [h1, h2]).any (· < 24)
  | [h1, h2, ':', m1, m2] =>
    (digitsValue [h1, h2]).any (· < 24) && (digitsValue [m1, m2]).any (· < 60)
  | h1 :: h2 :: ':' :: m1 :: m2 :: ':' :: s1 :: s2 :: rest =>
    (digitsValue [h1, h2]).any (· < 24) && (digitsValue [m1, m2]).any (· < 60) &&
    (digitsValue [s1, s2]).any (· < 60) &&
    (match rest with
     | [] => true
     | '.' :: fs => (fs.length = 3 ∨ fs.length = 6) && fs.all Char.isDigit
     | _ => false)
  | _ => false

/-- Modelled from the spec: `datetime.fromisoformat` (Python standard library, not
part of src/), which the spec describes as accepting "a valid ISO-8601
date/datetime string".  Modelled as `YYYY-MM-DD` with calendar-valid year (≥ 1),
month and day (leap years respected), optionally followed by a one-character
separator and a valid time part; timezone suffixes are outside this model. -/
def fromisoformatOk (s : String) : Bool :=
  match s.toList with
  | y1 :: y2 :: y3 :: y4 :: '-' :: mo1 :: mo2 :: '-' :: d1 :: d2 :: rest =>
    match digitsValue [y1, y2, y3, y4], digitsValue [mo1, mo2], digitsValue [d1, d2] with
    | some y, some mo, some d =>
      decide (1 ≤ y) && decide (1 ≤ mo) && decide (mo ≤ 12) &&
      decide (1 ≤ d) && decide (d ≤ daysInMonth y mo) &&
      (match rest with
       | [] => true
       | _ :: timePart => isoTimeOk timePart)
    | _, _, _ => false
  | _ => false

/-- The argument record of a `create_agent_action` call.  The payload dict is an
association list so that a genuinely absent key is distinguishable from a key
holding a null value. -/
structure SinkCall where
  action : String
  payload : List (String × String)
  performed_by : String
deriving DecidableEq

/-- Validation errors of the reminder workflow (`ValueError` in the source,
`ValidationError` in the spec). -/
inductive RemErr where
  | validation (msg : String)
deriving DecidableEq

/-- The `remind_date` actually used: `if not remind_date: remind_date =
datetime.utcnow().date().isoformat()` — Python truthiness makes both `None` and
`""` fall back to `today`, the clock value passed in as a parameter. -/
def usedRemindDate (today : String) (remind_date : Option String) : String :=
  match remind_date with
  | none => today
  | some s => if s = "" then today else s

/-- The payload dict (create_collection_reminder.py, lines 83-89): base keys
`customer_id` and `remind_date`, plus `invoice_id` only when `invoice_id` is
truthy (supplied and non-empty). -/
def reminderPayload (customer_id rd : String) (invoice_id : Option String) :
    List (String × String) :=
  [("customer_id", pyStrip customer_id), ("remind_date", rd)] ++
    match invoice_id with
    | none => []
    | some s => if s = "" then [] else [("invoice_id", pyStrip s)]

/-- Embedding of `CreateCollectionReminderUC.execute` (create_collection_reminder.py,
lines
37-110).  The sink is passed as the function `sink` and the call record is handed
to it on success; the clock is the parameter `today` (the value
`datetime.utcnow().date().isoformat()` would produce). -/
def CreateCollectionReminderUC.execute (sink : SinkCall → String) (today : String)
    (customer_id performed_by : String) (invoice_id remind_date : Option String) :
    Except RemErr String :=
  if pyStrip customer_id = "" then
    .error (.validation "customer_id is required and cannot be empty")
  else if pyStrip performed_by = "" then
    .error (.validation "performed_by is required and cannot be empty")
  else
    let rd := usedRemindDate today remind_date
    if fromisoformatOk rd then
      .ok (sink { action := "collection_reminder"
                  payload := reminderPayload customer_id rd invoice_id
                  performed_by := pyStrip performed_by })
    else
      .error (.validation ("Invalid remind_date format: " ++ rd ++
        ". Expected ISO format (YYYY-MM-DD)"))

/-! ### General lemmas about the embedded definitions -/

instance {ε α : Type} [DecidableEq ε] [DecidableEq α] : DecidableEq (Except ε α) := fun a b =>
  match a, b with
  | .error x, .error y => decidable_of_iff (x = y) (by simp)
  | .error _, .ok _ => isFalse (by simp)
  | .ok _, .error _ => isFalse (by simp)
  | .ok x, .ok y => decidable_of_iff (x = y) (by simp)

lemma rhe_nonpos {q : ℚ} (hq : q ≤ 0) : rhe q ≤ 0 := by
  have hf : ⌊q⌋ ≤ 0 := Int.floor_nonpos hq
  have hfle : (⌊q⌋ : ℚ) ≤ q := Int.floor_le q
  simp only [rhe]
  split_ifs with h1 h2 h3
  · exact hf
  · exact hf
  · have : (⌊q⌋ : ℚ) = q - 1/2 := by linarith
    have hneg : (⌊q⌋ : ℚ) < 0 := by linarith
    have : ⌊q⌋ < 0 := by exact_mod_cast hneg
    omega
  · have hgt : q - (⌊q⌋ : ℚ) > 1/2 := lt_of_le_of_ne (not_lt.mp h1) (fun h => h2 h.symm)
    have hneg : (⌊q⌋ : ℚ) < 0 := by linarith
    have : ⌊q⌋ < 0 := by exact_mod_cast hneg
    omega

lemma round2_nonpos {q : ℚ} (hq : q ≤ 0) : round2 q ≤ 0 := by
  unfold round2
  have h : rhe (100 * q) ≤ 0 := rhe_nonpos (by linarith)
  have h' : (rhe (100 * q) : ℚ) ≤ 0 := by exact_mod_cast h
  have h100 : (0 : ℚ) < 100 := by norm_num
  exact div_nonpos_iff.mpr (Or.inr ⟨h', le_of_lt h100⟩)

lemma qmean_nonneg {l : List ℚ} (h : ∀ a ∈ l, 0 ≤ a) : 0 ≤ qmean l := by
  unfold qmean
  exact div_nonneg (List.sum_nonneg h) (by positivity)

/-- Shared computation lemma: the successful branch of the forecast use case. -/
lemma forecast_execute_ok {ε : Type} (repo : ℤ → Except ε (List SalesPoint))
    (horizon_days : ℤ) (series : List SalesPoint)
    (hrepo : repo (max (horizon_days * 2) 60) = .ok series) (hne : series ≠ []) :
    CashflowForecastUC.execute repo horizon_days =
      .ok { forecast_days := horizon_days
            average_daily_cashflow := round2 (qmean (series.map SalesPoint.amount))
            total_forecast := round2 (qmean (series.map SalesPoint.amount) * (horizon_days : ℚ))
            historical_period_days := series.length } := by
  simp only [CashflowForecastUC.execute, hrepo]
  simp [hne, List.map_eq_nil_iff]

/-- C1 (counterexample): on the series `[0.01, 0, 0, 0]` with `horizonDays = 100` the
engine returns `averageDailyCashflow = 0` (the mean `0.0025` rounded) but
`totalForecast = 0.25`, which differs from
`round(averageDailyCashflow * horizonDays, 2) = 0`: the code rounds the product of
the *unrounded* mean with the horizon. -/
theorem claim1_counterexample :
    CashflowForecastUC.execute (ε := Unit)
      (fun _ => .ok [⟨"d1", 1/100⟩, ⟨"d2", 0⟩, ⟨"d3", 0⟩, ⟨"d4", 0⟩]) 100 =
      .ok { forecast_days := 100, average_daily_cashflow := 0,
            total_forecast := 1/4, historical_period_days := 4 } ∧
    ¬ ((1 : ℚ)/4 = round2 ((0 : ℚ) * ((100 : ℤ) : ℚ))) := by
  constructor
  · decide
  · decide

/-- C1 (amended): for every positive `horizonDays`, the engine requests exactly
`max(horizonDays * 2, 60)` days of history, and on a non-empty returned series of
`N` points the result has `forecastDays = horizonDays`, `historicalPeriodDays = N`,
`averageDailyCashflow = round(mean, 2)` with `mean` the arithmetic mean of all `N`
amounts, and `totalForecast = round(mean * horizonDays, 2)` — the product is taken
with the unrounded mean. -/
theorem claim1_thm {ε : Type} (repo : ℤ → Except ε (List SalesPoint))
    (horizon_days : ℤ) (hpos : 0 < horizon_days) (series : List SalesPoint)
    (hrepo : repo (max (horizon_days * 2) 60) = .ok series) (hne : series ≠ []) :
    CashflowForecastUC.execute repo horizon_days =
      .ok { forecast_days := horizon_days
            average_daily_cashflow := round2 (qmean (series.map SalesPoint.amount))
            total_forecast := round2 (qmean (series.map SalesPoint.amount) * (horizon_days : ℚ))
            historical_period_days := series.length } :=
  forecast_execute_ok repo horizon_days series hrepo hne

/-- Witness for C1 at the spec's scenario: series `[4000, 5000, 6000]`,
horizon 10, giving mean 5000 and total 50000. -/
theorem claim1_witness :
    CashflowForecastUC.execute (ε := Unit)
      (fun _ => .ok [⟨"a", 4000⟩, ⟨"b", 5000⟩, ⟨"c", 6000⟩]) 10 =
      .ok { forecast_days := 10, average_daily_cashflow := 5000,
            total_forecast := 50000, historical_period_days := 3 } := by
  have h := claim1_thm (ε := Unit)
    (fun _ => .ok [⟨"a", 4000⟩, ⟨"b", 5000⟩, ⟨"c", 6000⟩]) 10 (by decide)
    [⟨"a", 4000⟩, ⟨"b", 5000⟩, ⟨"c", 6000⟩] rfl (by decide)
  rw [h]
  decide

/-- C6 (confirmed): the forecast fails with the insufficient-data error exactly when
the returned series is empty, and a failure of the source propagates unchanged
(the payload `e` is passed through verbatim, only tagged as a source failure). -/
theorem claim6_thm {ε : Type} (repo : ℤ → Except ε (List SalesPoint)) (horizon_days : ℤ) :
    (∀ e : ε, repo (max (horizon_days * 2) 60) = .error e →
      CashflowForecastUC.execute repo horizon_days = .error (.source e)) ∧
    (repo (max (horizon_days * 2) 60) = .ok [] →
      CashflowForecastUC.execute repo horizon_days =
        .error (.insufficientData "No historical sales data available for forecast")) ∧
    (∀ series : List SalesPoint, repo (max (horizon_days * 2) 60) = .ok series →
      series ≠ [] → ∃ r, CashflowForecastUC.execute repo horizon_days = .ok r) := by
  refine ⟨fun e he => ?_, fun he => ?_, fun series hrepo hne => ?_⟩
  · simp only [CashflowForecastUC.execute, he]
  · simp only [CashflowForecastUC.execute, he]
    simp
  · exact ⟨_, forecast_execute_ok repo horizon_days series hrepo hne⟩

/-- Witness for C6: an empty series gives the insufficient-data error; a source
failure with payload `"boom"` is propagated with that exact payload. -/
theorem claim6_witness :
    CashflowForecastUC.execute (ε := String) (fun _ => .ok []) 30 =
      .error (.insufficientData "No historical sales data available for forecast") ∧
    CashflowForecastUC.execute (ε := String) (fun _ => .error "boom") 30 =
      .error (.source "boom") :=
  ⟨(claim6_thm (ε := String) (fun _ => .ok []) 30).2.1 rfl,
   (claim6_thm (ε := String) (fun _ => .error "boom") 30).1 "boom" rfl⟩

/-- C10 (confirmed): for `horizonDays ≤ 0` the lookback clamps to 60, the engine
still returns normally on a non-empty series (no error for the out-of-range
horizon), and with non-negative amounts the total forecast
`round(mean * horizonDays, 2)` is zero or negative. -/
theorem claim10_thm {ε : Type} (repo : ℤ → Except ε (List SalesPoint))
    (horizon_days : ℤ) (hnp : horizon_days ≤ 0) (series : List SalesPoint)
    (hrepo : repo 60 = .ok series) (hne : series ≠ [])
    (hnn : ∀ p ∈ series, 0 ≤ p.amount) :
    max (horizon_days * 2) 60 = 60 ∧
    CashflowForecastUC.execute repo horizon_days =
      .ok { forecast_days := horizon_days
            average_daily_cashflow := round2 (qmean (series.map SalesPoint.amount))
            total_forecast := round2 (qmean (series.map SalesPoint.amount) * (horizon_days : ℚ))
            historical_period_days := series.length } ∧
    round2 (qmean (series.map SalesPoint.amount) * (horizon_days : ℚ)) ≤ 0 := by
  have hmax : max (horizon_days * 2) 60 = 60 := by omega
  refine ⟨hmax, ?_, ?_⟩
  · exact forecast_execute_ok repo horizon_days series (by rw [hmax]; exact hrepo) hne
  · apply round2_nonpos
    have hm : 0 ≤ qmean (series.map SalesPoint.amount) := by
      apply qmean_nonneg
      intro a hmem
      obtain ⟨p, hp, rfl⟩ := List.mem_map.mp hmem
      exact hnn p hp
    have hh : ((horizon_days : ℚ)) ≤ 0 := by exact_mod_cast hnp
    exact mul_nonpos_iff.mpr (Or.inl ⟨hm, hh⟩)

/-- Witness for C10: horizon 0 on the one-point series `[5]` returns normally with
total forecast 0, after a 60-day lookback. -/
theorem claim10_witness :
    max ((0 : ℤ) * 2) 60 = 60 ∧
    CashflowForecastUC.execute (ε := Unit) (fun _ => .ok [⟨"d1", 5⟩]) 0 =
      .ok { forecast_days := 0, average_daily_cashflow := round2 (qmean [(5 : ℚ)]),
            total_forecast := round2 (qmean [(5 : ℚ)] * ((0 : ℤ) : ℚ)),
            historical_period_days := 1 } ∧
    round2 (qmean [(5 : ℚ)] * ((0 : ℤ) : ℚ)) ≤ 0 :=
  claim10_thm (ε := Unit) (fun _ => .ok [⟨"d1", 5⟩]) 0 (by decide) [⟨"d1", 5⟩] rfl
    (by decide) (by intro p hp; fin_cases hp <;> norm_num)

/-! ### C3: insufficient data and the all-identical degenerate case -/

lemma dedup_length_lt_two_of_all_eq {l : List ℚ} (h : ∀ a ∈ l, ∀ b ∈ l, a = b) :
    l.dedup.length < 2 := by
  rcases hdd : l.dedup with _ | ⟨x, _ | ⟨y, t⟩⟩
  · simp
  · simp
  · exfalso
    have hnd := List.nodup_dedup l
    rw [hdd] at hnd
    have hx : x ∈ l := List.mem_dedup.mp (by rw [hdd]; exact List.mem_cons_self x _)
    have hy : y ∈ l := List.mem_dedup.mp (by rw [hdd]; exact List.mem_cons_of_mem x (List.mem_cons_self y t))
    have : x ≠ y := by
      intro hxy
      rw [List.nodup_cons] at hnd
      exact hnd.1 (hxy ▸ List.mem_cons_self y t)
    exact this (h x hx y hy)

lemma two_le_dedup_length {l : List ℚ} {a b : ℚ} (ha : a ∈ l) (hb : b ∈ l) (hab : a ≠ b) :
    2 ≤ l.dedup.length := by
  by_contra h2
  rcases hdd : l.dedup with _ | ⟨x, _ | ⟨y, t⟩⟩
  · have := List.mem_dedup.mpr ha
    rw [hdd] at this
    exact absurd this (List.not_mem_nil a)
  · have ha' := List.mem_dedup.mpr ha
    have hb' := List.mem_dedup.mpr hb
    rw [hdd] at ha' hb'
    rcases List.mem_singleton.mp ha' with rfl
    rcases List.mem_singleton.mp hb' with rfl
    exact hab rfl
  · exact h2 (by rw [hdd]; simp only [List.length_cons]; omega)

/-- C3 (confirmed): fewer than 2 points fail with the insufficient-data error; 2 or
more points with all amounts numerically identical instead return a result with
`stdDev = 0`, an empty anomaly list and `anomalyCount = 0` (the variance is never
computed in that branch). -/
theorem claim3_thm {ε : Type} (repo : ℤ → Except ε (List SalesPoint)) (threshold : ℚ)
    (period : String) (series : List SalesPoint)
    (hrepo : repo (DetectAnomaliesUC.parse_period_days period) = .ok series) :
    (series.length < 2 → DetectAnomaliesUC.execute repo threshold period =
      .error (.insufficientData "Insufficient data for anomaly detection (need at least 2 days)")) ∧
    (2 ≤ series.length →
      (∀ a ∈ series.map SalesPoint.amount, ∀ b ∈ series.map SalesPoint.amount, a = b) →
      DetectAnomaliesUC.execute repo threshold period =
        .ok { period := period
              total_days := series.length
              mean_sales := round2 (qmean (series.map SalesPoint.amount))
              std_dev := 0
              anomalies := []
              anomaly_count := 0 }) := by
  constructor
  · intro hlt
    simp only [DetectAnomaliesUC.execute, hrepo]
    rw [if_pos hlt]
  · intro hge hall
    simp only [DetectAnomaliesUC.execute, hrepo]
    rw [if_neg (by omega), if_pos (dedup_length_lt_two_of_all_eq hall)]

/-- Witness for C3: a one-point series fails; a three-point all-identical series
returns the degenerate result with `stdDev = 0` and no anomalies. -/
theorem claim3_witness :
    DetectAnomaliesUC.execute (ε := Unit) (fun _ => .ok [⟨"d1", 5000⟩]) 2 "last_60d" =
      .error (.insufficientData "Insufficient data for anomaly detection (need at least 2 days)") ∧
    DetectAnomaliesUC.execute (ε := Unit)
      (fun _ => .ok [⟨"d1", 5000⟩, ⟨"d2", 5000⟩, ⟨"d3", 5000⟩]) 2 "last_60d" =
      .ok { period := "last_60d", total_days := 3, mean_sales := 5000,
            std_dev := 0, anomalies := [], anomaly_count := 0 } := by
  constructor
  · exact (claim3_thm (ε := Unit) (fun _ => .ok [⟨"d1", 5000⟩]) 2 "last_60d"
      [⟨"d1", 5000⟩] rfl).1 (by decide)
  · have h := (claim3_thm (ε := Unit)
      (fun _ => .ok [⟨"d1", 5000⟩, ⟨"d2", 5000⟩, ⟨"d3", 5000⟩]) 2 "last_60d"
      [⟨"d1", 5000⟩, ⟨"d2", 5000⟩, ⟨"d3", 5000⟩] rfl).2 (by decide) (by decide)
    rw [h]
    decide

/-! ### C5: parsing of the period string -/

/-- The exact shape `last_<N>d` of the claim: the literal prefix `last_`, a
nonempty run of ASCII digits standing for the decimal number `N`, and the literal
final `d`. -/
def strictShape (s : String) : Option ℕ :=
  let cs := s.toList
  let mid := (cs.drop 5).dropLast
  if cs.take 5 = ['l', 'a', 's', 't', '_'] ∧ cs.getLast? = some 'd' ∧
      mid ≠ [] ∧ mid.all Char.isDigit then
    some (mid.foldl (fun acc c => 10 * acc + digitVal c) 0)
  else none

/-- What Python's lenient `int` makes of the `period[5:-1]` slice when the prefix
and suffix tests pass (`none` when they fail or `int` raises). -/
def lenientSliceInt (s : String) : Option ℤ :=
  let cs := s.toList
  if cs.take 5 = ['l', 'a', 's', 't', '_'] ∧ cs.getLast? = some 'd' then
    pyIntList ((cs.drop 5).dropLast)
  else none

lemma isPySpace_eq_false_of_isDigit {c : Char} (h : c.isDigit = true) :
    isPySpace c = false := by
  cases hb : isPySpace c
  · rfl
  · exfalso
    unfold isPySpace at hb
    simp only [Bool.or_eq_true, decide_eq_true_eq] at hb
    rcases hb with ((((rfl | rfl) | rfl) | rfl) | rfl) | rfl <;> exact absurd h (by decide)

lemma dropWhile_eq_self_of_forall {p : Char → Bool} {l : List Char}
    (h : ∀ c ∈ l, p c = false) : l.dropWhile p = l := by
  cases l with
  | nil => rfl
  | cons c cs => simp [List.dropWhile_cons, h c (List.mem_cons_self c cs)]

lemma pyDigitsAux_all_digits (cs : List Char) : ∀ acc : ℕ, (∀ c ∈ cs, c.isDigit = true) →
    pyDigitsAux acc cs = some (cs.foldl (fun a c => 10 * a + digitVal c) acc) := by
  induction cs with
  | nil => intro acc _; rfl
  | cons c cs ih =>
    intro acc h
    have hc : c.isDigit = true := h c (List.mem_cons_self c cs)
    have hcu : ¬ c = '_' := by rintro rfl; exact absurd hc (by decide)
    rw [pyDigitsAux.eq_def]
    simp only []
    rw [if_neg hcu, if_pos hc, List.foldl_cons]
    exact ih _ (fun x hx => h x (List.mem_cons_of_mem c hx))

lemma pyIntList_all_digits {cs : List Char} (hne : cs ≠ [])
    (h : ∀ c ∈ cs, c.isDigit = true) :
    pyIntList cs = some ((cs.foldl (fun a c => 10 * a + digitVal c) 0 : ℕ) : ℤ) := by
  obtain ⟨c, rest, rfl⟩ := List.exists_cons_of_ne_nil hne
  have hstrip : ∀ x ∈ (c :: rest).reverse, isPySpace x = false := by
    intro x hx
    exact isPySpace_eq_false_of_isDigit (h x (List.mem_reverse.mp hx))
  have hc : c.isDigit = true := h c (List.mem_cons_self c rest)
  have hplus : ¬ c = '+' := by rintro rfl; exact absurd hc (by decide)
  have hminus : ¬ c = '-' := by rintro rfl; exact absurd hc (by decide)
  simp only [pyIntList, dropWhile_eq_self_of_forall (fun x hx => isPySpace_eq_false_of_isDigit (h x hx)),
    dropWhile_eq_self_of_forall hstrip, List.reverse_reverse]
  simp only [if_neg hplus, if_neg hminus]
  rw [pyDigits, if_pos hc, pyDigitsAux_all_digits rest (digitVal c)
    (fun x hx => h x (List.mem_cons_of_mem c hx))]
  simp [List.foldl_cons, Option.map]

/-- C5 (amended): a period string of the exact shape `last_<N>d` (`N` a nonempty
digit run) uses `N` as the lookback; a string not of that shape falls back to 60
days with no error — unless the text between `last_` and the final `d` still
parses under Python's lenient `int` (surrounding whitespace, a sign, underscore
digit separators), in which case that integer is used instead. -/
theorem claim5_thm (s : String) :
    (∀ n : ℕ, strictShape s = some n → DetectAnomaliesUC.parse_period_days s = n) ∧
    (strictShape s = none → lenientSliceInt s = none →
      DetectAnomaliesUC.parse_period_days s = 60) := by
  constructor
  · intro n hs
    simp only [strictShape] at hs
    split_ifs at hs with hcond
    · obtain ⟨h1, h2, h3, h4⟩ := hcond
      simp only [Option.some.injEq] at hs
      simp only [DetectAnomaliesUC.parse_period_days]
      rw [if_pos ⟨h1, h2⟩, pyIntList_all_digits h3 (fun c hc => by
        have := List.all_eq_true.mp h4 c hc
        simpa using this)]
      simp only [Int.ofNat_eq_coe, Nat.cast_inj]
      exact hs
  · intro _ hlen
    simp only [lenientSliceInt] at hlen
    simp only [DetectAnomaliesUC.parse_period_days]
    split_ifs with hcond
    · rw [if_pos hcond] at hlen
      rw [hlen]
    · rfl

/-- C5 (counterexample): `"last_1_0d"` does not match the exact `last_<N>d` shape
(`1_0` is not a digit run), yet the code parses it to 10, not the claimed default
60 — Python's `int` accepts underscore separators. -/
theorem claim5_counterexample :
    strictShape "last_1_0d" = none ∧
    DetectAnomaliesUC.parse_period_days "last_1_0d" = 10 ∧ ¬ ((10 : ℤ) = 60) := by
  refine ⟨by decide, by decide, by decide⟩

/-- Witness for C5: `last_90d` parses to 90; a string of the wrong shape whose
slice is not an integer either falls back to 60. -/
theorem claim5_witness :
    DetectAnomaliesUC.parse_period_days "last_90d" = ((90 : ℕ) : ℤ) ∧
    DetectAnomaliesUC.parse_period_days "gibberish" = 60 :=
  ⟨(claim5_thm "last_90d").1 90 (by decide),
   (claim5_thm "gibberish").2 (by decide) (by decide)⟩

/-! ### C2 and C4: membership, deviation and ordering of anomalies -/

/-- Shared computation lemma: the non-degenerate branch of the anomaly use case. -/
lemma detect_execute_ok {ε : Type} (repo : ℤ → Except ε (List SalesPoint))
    (threshold : ℚ) (period : String) (series : List SalesPoint)
    (hrepo : repo (DetectAnomaliesUC.parse_period_days period) = .ok series)
    (hlen : 2 ≤ series.length)
    (hded : 2 ≤ (series.map SalesPoint.amount).dedup.length) :
    DetectAnomaliesUC.execute repo threshold period =
      .ok { period := period
            total_days := series.length
            mean_sales := round2 (qmean (series.map SalesPoint.amount))
            std_dev := stdRound2 (sampleVar (series.map SalesPoint.amount))
            anomalies := DetectAnomaliesUC.sortAnomalies
              (DetectAnomaliesUC.anomaliesUnsorted threshold
                (qmean (series.map SalesPoint.amount))
                (sampleVar (series.map SalesPoint.amount)) series)
            anomaly_count := (DetectAnomaliesUC.sortAnomalies
              (DetectAnomaliesUC.anomaliesUnsorted threshold
                (qmean (series.map SalesPoint.amount))
                (sampleVar (series.map SalesPoint.amount)) series)).length } := by
  simp only [DetectAnomaliesUC.execute, hrepo]
  rw [if_neg (by omega), if_neg (by omega)]

lemma sampleVar_pos {l : List ℚ} (hlen : 2 ≤ l.length) {a b : ℚ}
    (ha : a ∈ l) (hb : b ∈ l) (hab : a ≠ b) : 0 < sampleVar l := by
  unfold sampleVar
  have hden : (0 : ℚ) < (l.length : ℚ) - 1 := by
    have : (2 : ℚ) ≤ (l.length : ℚ) := by exact_mod_cast hlen
    linarith
  apply div_pos _ hden
  have hc : ∃ c ∈ l, c ≠ qmean l := by
    by_contra hno
    push_neg at hno
    exact hab ((hno a ha).trans (hno b hb).symm)
  obtain ⟨c, hcl, hcm⟩ := hc
  have hmem : (c - qmean l) ^ 2 ∈ l.map (fun x => (x - qmean l) ^ 2) :=
    List.mem_map_of_mem _ hcl
  have h0 : c - qmean l ≠ 0 := sub_ne_zero.mpr hcm
  have hpos : 0 < (c - qmean l) ^ 2 :=
    lt_of_le_of_ne (sq_nonneg _) (Ne.symm (pow_ne_zero 2 h0))
  have hsum : (c - qmean l) ^ 2 ≤ (l.map (fun x => (x - qmean l) ^ 2)).sum :=
    List.single_le_sum (fun x hx => by
      obtain ⟨y, _, rfl⟩ := List.mem_map.mp hx
      exact sq_nonneg _) _ hmem
  linarith

/-- The test `abs(z_score) > threshold` over the reals, reduced to the exact
rational comparison used in the embedding (`std_dev = √v > 0`). -/
lemma abs_z_gt_iff {d v t : ℚ} (hv : 0 < v) :
    ((t : ℝ) < |(d : ℝ) / Real.sqrt (v : ℝ)|) ↔ (t < 0 ∨ t ^ 2 * v < d ^ 2) := by
  have hvR : (0 : ℝ) < (v : ℝ) := by exact_mod_cast hv
  have hs : (0 : ℝ) < Real.sqrt v := Real.sqrt_pos.mpr hvR
  have hsq : Real.sqrt (v : ℝ) ^ 2 = (v : ℝ) := Real.sq_sqrt hvR.le
  rw [abs_div, abs_of_pos hs, lt_div_iff hs]
  by_cases ht : t < 0
  · constructor
    · intro _
      exact Or.inl ht
    · intro _
      have htR : (t : ℝ) < 0 := by exact_mod_cast ht
      exact lt_of_lt_of_le (mul_neg_of_neg_of_pos htR hs) (abs_nonneg _)
  · push_neg at ht
    have htR : (0 : ℝ) ≤ (t : ℝ) := by exact_mod_cast ht
    have key : (t : ℝ) * Real.sqrt v < |(d : ℝ)| ↔ t ^ 2 * v < d ^ 2 := by
      rw [← pow_lt_pow_iff_left₀ (mul_nonneg htR hs.le) (abs_nonneg _) two_ne_zero,
        mul_pow, hsq, sq_abs]
      constructor
      · intro h
        exact_mod_cast h
      · intro h
        exact_mod_cast h
    rw [key]
    exact ⟨fun h => Or.inr h, fun h => h.resolve_left (not_lt.mpr ht)⟩

/-- The test `z_score > 0` over the reals, for `std_dev = √v > 0`. -/
lemma zpos_iff {d v : ℚ} (hv : 0 < v) :
    ((0 : ℝ) < (d : ℝ) / Real.sqrt (v : ℝ)) ↔ 0 < d := by
  have hvR : (0 : ℝ) < (v : ℝ) := by exact_mod_cast hv
  have hs : (0 : ℝ) < Real.sqrt v := Real.sqrt_pos.mpr hvR
  constructor
  · intro h
    by_contra hd
    push_neg at hd
    have hdR : (d : ℝ) ≤ 0 := by exact_mod_cast hd
    have := div_nonpos_iff.mpr (Or.inr ⟨hdR, hs.le⟩)
    linarith
  · intro h
    exact div_pos (by exact_mod_cast h) hs

lemma isAnomalous_iff {t d v : ℚ} (hv : 0 < v) :
    DetectAnomaliesUC.isAnomalous t d v = true ↔ (t < 0 ∨ t ^ 2 * v < d ^ 2) := by
  unfold DetectAnomaliesUC.isAnomalous
  rw [if_pos hv]
  simp

lemma anomalyEntry_deviation {m v : ℚ} (hv : 0 < v) (sale : SalesPoint) :
    ((DetectAnomaliesUC.anomalyEntry m v sale).deviation = "high" ↔ 0 < sale.amount - m) ∧
    ((DetectAnomaliesUC.anomalyEntry m v sale).deviation = "low" ↔ ¬ 0 < sale.amount - m) := by
  unfold DetectAnomaliesUC.anomalyEntry DetectAnomaliesUC.zPositive
  rw [if_pos hv]
  by_cases hd : 0 < sale.amount - m
  · simp [hd]
  · simp [hd]

lemma mem_anomaliesUnsorted_iff {threshold m v : ℚ} {series : List SalesPoint}
    {q : AnomalyPoint} :
    q ∈ DetectAnomaliesUC.anomaliesUnsorted threshold m v series ↔
      ∃ sale ∈ series, DetectAnomaliesUC.isAnomalous threshold (sale.amount - m) v = true ∧
        q = DetectAnomaliesUC.anomalyEntry m v sale := by
  unfold DetectAnomaliesUC.anomaliesUnsorted
  rw [List.mem_filterMap]
  constructor
  · rintro ⟨sale, hs, hf⟩
    by_cases hc : DetectAnomaliesUC.isAnomalous threshold (sale.amount - m) v = true
    · rw [if_pos hc] at hf
      exact ⟨sale, hs, hc, (Option.some_inj.mp hf).symm⟩
    · rw [if_neg hc] at hf
      cases hf
  · rintro ⟨sale, hs, hc, rfl⟩
    exact ⟨sale, hs, by rw [if_pos hc]⟩

lemma date_inj_of_nodup {series : List SalesPoint}
    (h : (series.map SalesPoint.date).Nodup) {x y : SalesPoint}
    (hx : x ∈ series) (hy : y ∈ series) (hd : x.date = y.date) : x = y :=
  List.inj_on_of_nodup_map h hx hy hd

lemma sortAnomalies_mem_iff {l : List AnomalyPoint} {q : AnomalyPoint} :
    q ∈ DetectAnomaliesUC.sortAnomalies l ↔ q ∈ l :=
  (List.perm_insertionSort _ l).mem_iff

/-- C2 (confirmed): on a series of at least 2 points with at least 2 distinct
amounts (and, per the data model, at most one point per date), a point of the
series appears in the anomalies list iff `|z| > threshold` with
`z = (amount - mean)/stdDev`, `stdDev` the Bessel-corrected sample standard
deviation; a reported point has `deviation = "high"` iff its `z > 0` and
`"low"` otherwise. -/
theorem claim2_thm {ε : Type} (repo : ℤ → Except ε (List SalesPoint)) (threshold : ℚ)
    (period : String) (series : List SalesPoint)
    (hrepo : repo (DetectAnomaliesUC.parse_period_days period) = .ok series)
    (hlen : 2 ≤ series.length)
    (hdates : (series.map SalesPoint.date).Nodup)
    (a b : ℚ) (ha : a ∈ series.map SalesPoint.amount)
    (hb : b ∈ series.map SalesPoint.amount) (hab : a ≠ b) :
    ∃ r, DetectAnomaliesUC.execute repo threshold period = .ok r ∧
      ∀ sale ∈ series,
        ((∃ q ∈ r.anomalies, q.date = sale.date) ↔
          (threshold : ℝ) <
            |((sale.amount - qmean (series.map SalesPoint.amount) : ℚ) : ℝ) /
              Real.sqrt ((sampleVar (series.map SalesPoint.amount) : ℚ) : ℝ)|) ∧
        ∀ q ∈ r.anomalies, q.date = sale.date →
          ((q.deviation = "high" ↔
            (0 : ℝ) < ((sale.amount - qmean (series.map SalesPoint.amount) : ℚ) : ℝ) /
              Real.sqrt ((sampleVar (series.map SalesPoint.amount) : ℚ) : ℝ)) ∧
           (q.deviation = "low" ↔
            ¬ (0 : ℝ) < ((sale.amount - qmean (series.map SalesPoint.amount) : ℚ) : ℝ) /
              Real.sqrt ((sampleVar (series.map SalesPoint.amount) : ℚ) : ℝ))) := by
  have hlen' : 2 ≤ (series.map SalesPoint.amount).length := by
    rw [List.length_map]
    exact hlen
  have hv : 0 < sampleVar (series.map SalesPoint.amount) := sampleVar_pos hlen' ha hb hab
  have hded : 2 ≤ (series.map SalesPoint.amount).dedup.length := two_le_dedup_length ha hb hab
  refine ⟨_, detect_execute_ok repo threshold period series hrepo hlen hded, ?_⟩
  intro sale hsale
  dsimp only
  constructor
  · constructor
    · rintro ⟨q, hq, hdq⟩
      rw [sortAnomalies_mem_iff] at hq
      obtain ⟨sale', hs', hcond, rfl⟩ := mem_anomaliesUnsorted_iff.mp hq
      have heq : sale' = sale := date_inj_of_nodup hdates hs' hsale hdq
      subst heq
      exact (abs_z_gt_iff hv).mpr ((isAnomalous_iff hv).mp hcond)
    · intro hz
      refine ⟨DetectAnomaliesUC.anomalyEntry (qmean (series.map SalesPoint.amount))
        (sampleVar (series.map SalesPoint.amount)) sale, ?_, rfl⟩
      rw [sortAnomalies_mem_iff]
      exact mem_anomaliesUnsorted_iff.mpr
        ⟨sale, hsale, (isAnomalous_iff hv).mpr ((abs_z_gt_iff hv).mp hz), rfl⟩
  · intro q hq hdq
    rw [sortAnomalies_mem_iff] at hq
    obtain ⟨sale', hs', hcond, rfl⟩ := mem_anomaliesUnsorted_iff.mp hq
    have heq : sale' = sale := date_inj_of_nodup hdates hs' hsale hdq
    subst heq
    have hdev := anomalyEntry_deviation (m := qmean (series.map SalesPoint.amount)) hv sale'
    constructor
    · rw [hdev.1]
      exact (zpos_iff hv).symm
    · rw [hdev.2]
      exact not_congr (zpos_iff hv).symm

/-- The spec's anomaly scenario: seven days of sales with one high and one low
outlier, analysed at threshold 1.5. -/
def specSeries : List SalesPoint :=
  [⟨"2025-10-01", 5000⟩, ⟨"2025-10-02", 5100⟩, ⟨"2025-10-03", 4900⟩,
   ⟨"2025-10-04", 5000⟩, ⟨"2025-10-05", 10000⟩, ⟨"2025-10-06", 1000⟩,
   ⟨"2025-10-07", 5000⟩]

/-- Witness for C2 at the spec's scenario series, threshold 1.5. -/
theorem claim2_witness :
    ∃ r, DetectAnomaliesUC.execute (ε := Unit) (fun _ => .ok specSeries) (3/2) "last_60d" =
      .ok r ∧
      ∀ sale ∈ specSeries,
        ((∃ q ∈ r.anomalies, q.date = sale.date) ↔
          ((3/2 : ℚ) : ℝ) <
            |((sale.amount - qmean (specSeries.map SalesPoint.amount) : ℚ) : ℝ) /
              Real.sqrt ((sampleVar (specSeries.map SalesPoint.amount) : ℚ) : ℝ)|) ∧
        ∀ q ∈ r.anomalies, q.date = sale.date →
          ((q.deviation = "high" ↔
            (0 : ℝ) < ((sale.amount - qmean (specSeries.map SalesPoint.amount) : ℚ) : ℝ) /
              Real.sqrt ((sampleVar (specSeries.map SalesPoint.amount) : ℚ) : ℝ)) ∧
           (q.deviation = "low" ↔
            ¬ (0 : ℝ) < ((sale.amount - qmean (specSeries.map SalesPoint.amount) : ℚ) : ℝ) /
              Real.sqrt ((sampleVar (specSeries.map SalesPoint.amount) : ℚ) : ℝ))) :=
  claim2_thm (ε := Unit) (fun _ => .ok specSeries) (3/2) "last_60d" specSeries rfl
    (by decide) (by decide) 5000 5100 (by decide) (by decide) (by decide)

lemma orderedInsert_absZ_filter (x : AnomalyPoint) (m : List AnomalyPoint) (k : ℚ) :
    (List.orderedInsert (fun p q => |q.z_score| ≤ |p.z_score|) x m).filter
        (fun p => decide (|p.z_score| = k)) =
      if |x.z_score| = k then
        x :: m.filter (fun p => decide (|p.z_score| = k))
      else m.filter (fun p => decide (|p.z_score| = k)) := by
  induction m with
  | nil =>
    by_cases hx : |x.z_score| = k <;> simp [List.orderedInsert, hx]
  | cons b m ih =>
    rw [List.orderedInsert]
    by_cases hr : |b.z_score| ≤ |x.z_score|
    · rw [if_pos hr]
      by_cases hx : |x.z_score| = k <;> simp [List.filter_cons, hx]
    · rw [if_neg hr]
      rw [List.filter_cons, ih]
      by_cases hx : |x.z_score| = k
      · have hb : ¬ (|b.z_score| = k) := by
          intro hbk
          exact hr (le_of_eq (by rw [hbk, hx]))
        simp [List.filter_cons, hx, hb]
      · simp [List.filter_cons, hx]

lemma sortAnomalies_filter (l : List AnomalyPoint) (k : ℚ) :
    (DetectAnomaliesUC.sortAnomalies l).filter (fun p => decide (|p.z_score| = k)) =
      l.filter (fun p => decide (|p.z_score| = k)) := by
  unfold DetectAnomaliesUC.sortAnomalies
  induction l with
  | nil => rfl
  | cons x l ih =>
    rw [List.insertionSort, orderedInsert_absZ_filter, ih, List.filter_cons]
    by_cases hx : |x.z_score| = k <;> simp [hx]

lemma sortAnomalies_sorted (l : List AnomalyPoint) :
    (DetectAnomaliesUC.sortAnomalies l).Sorted (fun p q => |q.z_score| ≤ |p.z_score|) := by
  haveI h1 : IsTotal AnomalyPoint (fun p q => |q.z_score| ≤ |p.z_score|) :=
    ⟨fun p q => le_total |q.z_score| |p.z_score|⟩
  haveI h2 : IsTrans AnomalyPoint (fun p q => |q.z_score| ≤ |p.z_score|) :=
    ⟨fun _ _ _ hab hbc => le_trans hbc hab⟩
  exact List.sorted_insertionSort _ l

/-- C4 (amended): in the result of every non-degenerate detection, the anomalies
list is sorted descending by the magnitude of the *reported* zScore — the value
rounded to 2 decimals that the sort key `abs(x["z_score"])` reads — and the
points with any given reported magnitude keep their original series order
(`anomaliesUnsorted` lists them in series order). -/
theorem claim4_thm {ε : Type} (repo : ℤ → Except ε (List SalesPoint)) (threshold : ℚ)
    (period : String) (series : List SalesPoint)
    (hrepo : repo (DetectAnomaliesUC.parse_period_days period) = .ok series)
    (hlen : 2 ≤ series.length)
    (a b : ℚ) (ha : a ∈ series.map SalesPoint.amount)
    (hb : b ∈ series.map SalesPoint.amount) (hab : a ≠ b) :
    ∃ r, DetectAnomaliesUC.execute repo threshold period = .ok r ∧
      r.anomalies.Sorted (fun p q => |q.z_score| ≤ |p.z_score|) ∧
      ∀ k : ℚ, r.anomalies.filter (fun p => decide (|p.z_score| = k)) =
        (DetectAnomaliesUC.anomaliesUnsorted threshold
          (qmean (series.map SalesPoint.amount))
          (sampleVar (series.map SalesPoint.amount)) series).filter
            (fun p => decide (|p.z_score| = k)) := by
  have hded : 2 ≤ (series.map SalesPoint.amount).dedup.length := two_le_dedup_length ha hb hab
  refine ⟨_, detect_execute_ok repo threshold period series hrepo hlen hded, ?_, ?_⟩
  · exact sortAnomalies_sorted _
  · intro k
    exact sortAnomalies_filter _ k

/-- The series for the C4 counterexample.  Its mean is `2001/4` and its sample
variance is `4004003/12`; the true z-scores of the four points are
`-0.86602…`, `-0.86602…`, `+0.86516…` and `+0.86689…`, all of which round to a
reported `z_score` of magnitude `0.87`. -/
def c4Series : List SalesPoint := [⟨"d1", 0⟩, ⟨"d2", 0⟩, ⟨"d3", 1000⟩, ⟨"d4", 1001⟩]

/-- The anomalies the code reports for `c4Series` at threshold `0.5`: the sort
keys `|z_score|` are all equal, so the stable sort keeps series order — leaving
the point with true `|z| ≈ 0.86516` *before* the one with true `|z| ≈ 0.86689`. -/
def c4Anomalies : List AnomalyPoint :=
  [⟨"d1", 0, -87/100, "low"⟩, ⟨"d2", 0, -87/100, "low"⟩,
   ⟨"d3", 1000, 87/100, "high"⟩, ⟨"d4", 1001, 87/100, "high"⟩]

/-- C4 (counterexample): the anomalies list is not sorted by the magnitude of the
exact z-score `(amount - mean)/stdDev` — the third reported point has a strictly
smaller true `|z|` than the fourth.  (All four amounts are whole numbers, so the
reported `amount` equals the series amount.) -/
theorem claim4_counterexample :
    DetectAnomaliesUC.execute (ε := Unit) (fun _ => .ok c4Series) (1/2) "last_60d" =
      .ok { period := "last_60d", total_days := 4, mean_sales := 2001/4,
            std_dev := 14441/25, anomalies := c4Anomalies, anomaly_count := 4 } ∧
    qmean (c4Series.map SalesPoint.amount) = 2001/4 ∧
    sampleVar (c4Series.map SalesPoint.amount) = 4004003/12 ∧
    ¬ c4Anomalies.Sorted (fun p q =>
        |((q.amount - 2001/4 : ℚ) : ℝ) / Real.sqrt ((4004003/12 : ℚ) : ℝ)| ≤
        |((p.amount - 2001/4 : ℚ) : ℝ) / Real.sqrt ((4004003/12 : ℚ) : ℝ)|) := by
  refine ⟨by decide, by decide, by decide, ?_⟩
  intro hsort
  unfold c4Anomalies at hsort
  rw [List.sorted_cons] at hsort
  obtain ⟨-, hsort⟩ := hsort
  rw [List.sorted_cons] at hsort
  obtain ⟨-, hsort⟩ := hsort
  rw [List.sorted_cons] at hsort
  obtain ⟨h34, -⟩ := hsort
  have h := h34 ⟨"d4", 1001, 87/100, "high"⟩ (List.mem_cons_self _ _)
  have hVpos : (0 : ℝ) < ((4004003/12 : ℚ) : ℝ) := by
    push_cast
    norm_num
  have hs : 0 < Real.sqrt ((4004003/12 : ℚ) : ℝ) := Real.sqrt_pos.mpr hVpos
  dsimp only at h
  rw [abs_of_pos (div_pos (by push_cast; norm_num) hs),
    abs_of_pos (div_pos (by push_cast; norm_num) hs), div_le_div_right hs] at h
  push_cast at h
  norm_num at h

/-- Witness for C4 at the series `[1, 2, 100]`, threshold 1. -/
theorem claim4_witness :
    ∃ r, DetectAnomaliesUC.execute (ε := Unit)
      (fun _ => .ok [⟨"a", 1⟩, ⟨"b", 2⟩, ⟨"c", 100⟩]) 1 "last_60d" = .ok r ∧
      r.anomalies.Sorted (fun p q => |q.z_score| ≤ |p.z_score|) ∧
      ∀ k : ℚ, r.anomalies.filter (fun p => decide (|p.z_score| = k)) =
        (DetectAnomaliesUC.anomaliesUnsorted 1
          (qmean ([⟨"a", 1⟩, ⟨"b", 2⟩, ⟨"c", 100⟩].map SalesPoint.amount))
          (sampleVar ([⟨"a", 1⟩, ⟨"b", 2⟩, ⟨"c", 100⟩].map SalesPoint.amount))
          [⟨"a", 1⟩, ⟨"b", 2⟩, ⟨"c", 100⟩]).filter
            (fun p => decide (|p.z_score| = k)) :=
  claim4_thm (ε := Unit) (fun _ => .ok [⟨"a", 1⟩, ⟨"b", 2⟩, ⟨"c", 100⟩]) 1 "last_60d"
    [⟨"a", 1⟩, ⟨"b", 2⟩, ⟨"c", 100⟩] rfl (by decide) 1 2 (by decide) (by decide) (by decide)

/-! ### C7, C8, C9: the collection-reminder workflow -/

/-- C7 (confirmed): validation order and trimming.  An all-whitespace or empty
`customerId` fails first with the customer-id `ValidationError`; then an
all-whitespace or empty `performedBy` fails with the performed-by error; when
both pass (and the used remind date is valid) the trimmed values are what the
payload and the ActionSink call carry. -/
theorem claim7_thm (sink : SinkCall → String) (today customer_id performed_by : String)
    (invoice_id remind_date : Option String) :
    (pyStrip customer_id = "" →
      CreateCollectionReminderUC.execute sink today customer_id performed_by
        invoice_id remind_date =
        .error (.validation "customer_id is required and cannot be empty")) ∧
    (pyStrip customer_id ≠ "" → pyStrip performed_by = "" →
      CreateCollectionReminderUC.execute sink today customer_id performed_by
        invoice_id remind_date =
        .error (.validation "performed_by is required and cannot be empty")) ∧
    (pyStrip customer_id ≠ "" → pyStrip performed_by ≠ "" →
      fromisoformatOk (usedRemindDate today remind_date) = true →
      CreateCollectionReminderUC.execute sink today customer_id performed_by
        invoice_id remind_date =
        .ok (sink { action := "collection_reminder"
                    payload := reminderPayload customer_id
                      (usedRemindDate today remind_date) invoice_id
                    performed_by := pyStrip performed_by })) := by
  refine ⟨fun hc => ?_, fun hc hp => ?_, fun hc hp hd => ?_⟩
  · simp only [CreateCollectionReminderUC.execute, if_pos hc]
  · simp only [CreateCollectionReminderUC.execute, if_neg hc, if_pos hp]
  · simp only [CreateCollectionReminderUC.execute, if_neg hc, if_neg hp, hd, if_pos]

/-- Witness for C7: the spec's two examples — an empty `customerId` is rejected,
and `"  CUST1  "`/`"  u  "` are trimmed to `"CUST1"`/`"u"` (the sink sees the
trimmed `performed_by`, returned as the action id here). -/
theorem claim7_witness :
    CreateCollectionReminderUC.execute (fun _ => "A1") "2025-10-07" "" "user" none none =
      .error (.validation "customer_id is required and cannot be empty") ∧
    CreateCollectionReminderUC.execute (fun c => c.performed_by) "2025-10-07"
      "  CUST1  " "  u  " none none = .ok "u" ∧
    CreateCollectionReminderUC.execute
      (fun c => (c.payload.lookup "customer_id").getD "?") "2025-10-07"
      "  CUST1  " "  u  " none none = .ok "CUST1" := by
  refine ⟨?_, ?_, ?_⟩
  · exact (claim7_thm (fun _ => "A1") "2025-10-07" "" "user" none none).1 (by decide)
  · have h := (claim7_thm (fun c => c.performed_by) "2025-10-07" "  CUST1  " "  u  "
      none none).2.2 (by decide) (by decide) (by decide)
    rw [h]
    decide
  · have h := (claim7_thm (fun c => (c.payload.lookup "customer_id").getD "?")
      "2025-10-07" "  CUST1  " "  u  " none none).2.2 (by decide) (by decide) (by decide)
    rw [h]
    decide

/-- C8 (confirmed): an absent (or empty) `remindDate` defaults to the current UTC
calendar date (the clock value `today`, produced by
`datetime.utcnow().date().isoformat()`); whatever date is used must pass
`datetime.fromisoformat`, otherwise the call fails with the invalid-format
`ValidationError` and no ActionSink call is made (the result does not involve
`sink` at all); on success the used date is what the sink call carries. -/
theorem claim8_thm (sink : SinkCall → String) (today customer_id performed_by : String)
    (invoice_id remind_date : Option String)
    (hc : pyStrip customer_id ≠ "") (hp : pyStrip performed_by ≠ "") :
    (usedRemindDate today none = today ∧ usedRemindDate today (some "") = today) ∧
    (fromisoformatOk (usedRemindDate today remind_date) = false →
      CreateCollectionReminderUC.execute sink today customer_id performed_by
        invoice_id remind_date =
        .error (.validation ("Invalid remind_date format: " ++
          usedRemindDate today remind_date ++ ". Expected ISO format (YYYY-MM-DD)"))) ∧
    (fromisoformatOk (usedRemindDate today remind_date) = true →
      CreateCollectionReminderUC.execute sink today customer_id performed_by
        invoice_id remind_date =
        .ok (sink { action := "collection_reminder"
                    payload := reminderPayload customer_id
                      (usedRemindDate today remind_date) invoice_id
                    performed_by := pyStrip performed_by })) := by
  refine ⟨⟨rfl, rfl⟩, fun hd => ?_, fun hd => ?_⟩
  · simp only [CreateCollectionReminderUC.execute, if_neg hc, if_neg hp, hd]
    rfl
  · simp only [CreateCollectionReminderUC.execute, if_neg hc, if_neg hp, hd, if_pos]

/-- Witness for C8: the spec's malformed date `"13/40/2025"` is rejected with the
invalid-format error; an absent date defaults to `today` (= `"2025-10-07"`),
which passes validation and reaches the sink payload. -/
theorem claim8_witness :
    CreateCollectionReminderUC.execute (fun _ => "A1") "2025-10-07" "C1" "u" none
      (some "13/40/2025") =
      .error (.validation
        "Invalid remind_date format: 13/40/2025. Expected ISO format (YYYY-MM-DD)") ∧
    CreateCollectionReminderUC.execute
      (fun c => (c.payload.lookup "remind_date").getD "?") "2025-10-07" "C1" "u"
      none none = .ok "2025-10-07" := by
  constructor
  · have h := (claim8_thm (fun _ => "A1") "2025-10-07" "C1" "u" none
      (some "13/40/2025") (by decide) (by decide)).2.1 (by decide)
    rw [h]
    decide
  · have h := (claim8_thm (fun c => (c.payload.lookup "remind_date").getD "?")
      "2025-10-07" "C1" "u" none none (by decide) (by decide)).2.2 (by decide)
    rw [h]
    decide

/-- C9 (confirmed): the payload is exactly `{customer_id: trimmed, remind_date:
used date}`, plus an `invoice_id` key holding the trimmed invoice id exactly when
`invoiceId` was supplied and non-empty; when it is omitted (or supplied empty)
the key is absent altogether. -/
theorem claim9_thm (sink : SinkCall → String) (today customer_id performed_by : String)
    (invoice_id remind_date : Option String)
    (hc : pyStrip customer_id ≠ "") (hp : pyStrip performed_by ≠ "")
    (hd : fromisoformatOk (usedRemindDate today remind_date) = true) :
    CreateCollectionReminderUC.execute sink today customer_id performed_by
      invoice_id remind_date =
      .ok (sink { action := "collection_reminder"
                  payload := reminderPayload customer_id
                    (usedRemindDate today remind_date) invoice_id
                  performed_by := pyStrip performed_by }) ∧
    (invoice_id = none →
      reminderPayload customer_id (usedRemindDate today remind_date) invoice_id =
        [("customer_id", pyStrip customer_id),
         ("remind_date", usedRemindDate today remind_date)]) ∧
    (∀ s, invoice_id = some s → s ≠ "" →
      reminderPayload customer_id (usedRemindDate today remind_date) invoice_id =
        [("customer_id", pyStrip customer_id),
         ("remind_date", usedRemindDate today remind_date),
         ("invoice_id", pyStrip s)]) ∧
    ((invoice_id = none ∨ invoice_id = some "") →
      "invoice_id" ∉ (reminderPayload customer_id (usedRemindDate today remind_date)
        invoice_id).map Prod.fst) := by
  refine ⟨?_, fun hi => ?_, fun s hi hs => ?_, fun hi => ?_⟩
  · simp only [CreateCollectionReminderUC.execute, if_neg hc, if_neg hp, hd, if_pos]
  · subst hi
    rfl
  · subst hi
    simp only [reminderPayload, if_neg hs]
    rfl
  · rcases hi with hi | hi <;> subst hi <;> simp [reminderPayload]

/-- Witness for C9: with invoice `"  INV9  "` the payload carries
`invoice_id = "INV9"`; with the invoice omitted the key is absent. -/
theorem claim9_witness :
    CreateCollectionReminderUC.execute
      (fun c => (c.payload.lookup "invoice_id").getD "absent") "2025-10-07" "C1" "u"
      (some "  INV9  ") (some "2025-01-15") = .ok "INV9" ∧
    reminderPayload "C1" "2025-01-15" none =
      [("customer_id", "C1"), ("remind_date", "2025-01-15")] ∧
    "invoice_id" ∉ (reminderPayload "C1" "2025-01-15" (some "")).map Prod.fst := by
  refine ⟨?_, ?_, ?_⟩
  · have h := (claim9_thm (fun c => (c.payload.lookup "invoice_id").getD "absent")
      "2025-10-07" "C1" "u" (some "  INV9  ") (some "2025-01-15")
      (by decide) (by decide) (by decide)).1
    rw [h]
    decide
  · exact (claim9_thm (fun _ => "A1") "2025-10-07" "C1" "u" none (some "2025-01-15")
      (by decide) (by decide) (by decide)).2.1 rfl
  · exact (claim9_thm (fun _ => "A1") "2025-10-07" "C1" "u" (some "") (some "2025-01-15")
      (by decide) (by decide) (by decide)).2.2.2 (Or.inr rfl)

/-! ### Correctness of the fuel-based integer square root used by the rounding
helpers (sanity lemmas for the embedding; no claim depends on them). -/

lemma isqrtFuel_spec (n : ℕ) : ∀ fuel lo hi, lo * lo ≤ n → n < hi * hi →
    hi ≤ lo + 2 ^ fuel →
    isqrtFuel n fuel lo hi * isqrtFuel n fuel lo hi ≤ n ∧
      n < (isqrtFuel n fuel lo hi + 1) * (isqrtFuel n fuel lo hi + 1) := by
  intro fuel
  induction fuel with
  | zero =>
    intro lo hi hlo hhi hfuel
    simp only [isqrtFuel]
    have : hi ≤ lo + 1 := by simpa using hfuel
    exact ⟨hlo, lt_of_lt_of_le hhi (Nat.mul_le_mul (by omega) (by omega))⟩
  | succ fuel ih =>
    intro lo hi hlo hhi hfuel
    rw [isqrtFuel]
    by_cases hend : hi ≤ lo + 1
    · rw [if_pos hend]
      exact ⟨hlo, lt_of_lt_of_le hhi (Nat.mul_le_mul (by omega) (by omega))⟩
    · rw [if_neg hend]
      have hpow : lo + 2 ^ (fuel + 1) = lo + 2 ^ fuel + 2 ^ fuel := by
        rw [pow_succ]
        omega
      by_cases hmid : ((lo + hi) / 2) * ((lo + hi) / 2) ≤ n
      · simp only [if_pos hmid]
        refine ih ((lo + hi) / 2) hi hmid hhi ?_
        omega
      · simp only [if_neg hmid]
        refine ih lo ((lo + hi) / 2) hlo (by omega) ?_
        omega

/-- Lemma: `isqrtN` really is the integer square root (for every `n` below `2 ^ 128`,
far beyond anything the embedding computes). -/
lemma isqrtN_spec (n : ℕ) (hn : n < 2 ^ 128) :
    isqrtN n * isqrtN n ≤ n ∧ n < (isqrtN n + 1) * (isqrtN n + 1) :=
  isqrtFuel_spec n 128 0 (n + 1) (by omega) (by nlinarith) (by omega)
